import Mathlib

/-!
Verification development for the lensit package entry module
(lensit/__init__.py), a thin orchestration layer building cached
CMB-lensing simulation libraries.

Embedding conventions, chosen so that every definition is executable:

- Physical lengths produced by the geometry code are always rational
  multiples of sqrt(4 pi) radians, so we record the rational coefficient
  (units of sqrt(4 pi)).  The product of two sides divided by 4 pi is then
  just the product of the two coefficients, which is what the fsky
  computation needs.
- Noise levels are rational multiples of sqrt 2 (values such as
  0.5 / sqrt 2 appear in the experiment table), so they live in the ring
  Rt2 of numbers a + b * sqrt 2 with rational a, b.
- Noise powers (sN * pi / 180 / 60) ** 2 are recorded as their Rt2
  coefficient of pi ** 2.
- Directory paths built with os.path.join are lists of path segments.
- The LENSIT environment variable (cache root) is passed explicitly as a
  root argument; fallible calls (Python assert failures) return Option.
- The multi-process helpers pbs.rank and pbs.barrier and the phase-cache
  completeness test is_full live outside this module; the control flow of
  the module that consumes them is embedded as a trace of events,
  parameterized by the rank of the worker and the completeness flags.
-/

namespace Lensit

/-- Module constant LMAX_SKY = 5120. -/
def LMAX_SKY : ℕ := 5120

/-- Numbers of the form a + b * sqrt 2, closed under the arithmetic the
experiment table needs (exact embedding of the float expressions built
from sqrt 2). -/
structure Rt2 where
  a : ℚ
  b : ℚ
deriving DecidableEq

/-- Product in the ring of a + b * sqrt 2. -/
def Rt2.mul (x y : Rt2) : Rt2 :=
  ⟨x.a * y.a + 2 * x.b * y.b, x.a * y.b + x.b * y.a⟩

/-- Rational scalar multiple. -/
def Rt2.scale (c : ℚ) (x : Rt2) : Rt2 :=
  ⟨c * x.a, c * x.b⟩

/-- Embeds a rational constant. -/
def Rt2.ofRat (q : ℚ) : Rt2 :=
  ⟨q, 0⟩

/-- The constant sqrt 2. -/
def Rt2.sqrt2 : Rt2 :=
  ⟨0, 1⟩

/-- Round-half-to-even on rationals, the rounding mode of np.round. -/
def np_round (x : ℚ) : ℤ :=
  if x - ⌊x⌋ < 1 / 2 then ⌊x⌋
  else if 1 / 2 < x - ⌊x⌋ then ⌊x⌋ + 1
  else if ⌊x⌋ % 2 = 0 then ⌊x⌋ else ⌊x⌋ + 1

/-- Zero-pads the decimal form of a nonnegative integer to width 4,
the %04d format used for the fsky path segment. -/
def pad4 (n : ℤ) : String :=
  let s := toString n
  if 4 ≤ s.length then s
  else String.mk (List.replicate (4 - s.length) '0') ++ s

/-- The fsky%04d path segment. -/
def fsky04 (n : ℤ) : String :=
  "fsky" ++ pad4 n

/-- The string wrotation * '_wcurl' appended to cache directory names. -/
def wsuffix (wrotation : Bool) : String :=
  if wrotation then "_wcurl" else ""

/-- The geometry value returned by get_ellmat: pixel grid shape, physical
side lengths (as rational coefficients of sqrt(4 pi) radians; Python
computes 2 ** r as a float when r is negative, hence rational entries for
the shape as well), and the cache directory. -/
structure EllMat where
  shape : ℚ × ℚ
  lsides : ℚ × ℚ
  lib_dir : List String
deriving DecidableEq

/-- Embeds get_ellmat.  The body first asserts HD_res <= 14 and
LD_res <= 14 (returning none on failure, before any path is formed), then
builds the cell size, shape, side lengths and library directory.  The
root argument models the LENSIT environment variable read by
_get_lensitdir. -/
def get_ellmat (root : String) (LD_res HD_res : ℤ) : Option EllMat :=
  if HD_res ≤ 14 ∧ LD_res ≤ 14 then
    let lcell_rad : ℚ := (1 / 2 ^ (14 : ℕ)) * (2 : ℚ) ^ (HD_res - LD_res)
    some { shape := ((2 : ℚ) ^ LD_res, (2 : ℚ) ^ LD_res),
           lsides := (lcell_rad * (2 : ℚ) ^ LD_res, lcell_rad * (2 : ℚ) ^ LD_res),
           lib_dir := [root, "temp", "ellmats",
                       "ellmat_" ++ toString HD_res ++ "_" ++ toString LD_res] }
  else none

/-- The fsky bucket int(np.round(prod(lsides) / 4 / pi * 1000)) computed
from a geometry; with sides stored as coefficients of sqrt(4 pi), the
quantity prod(lsides) / (4 pi) is exactly the product of the two
coefficients. -/
def fsky_of (em : EllMat) : ℤ :=
  np_round (em.lsides.1 * em.lsides.2 * 1000)

/-- Branch table of get_config: noise level sN_uKamin (in the ring of
a + b sqrt 2, since values such as 0.5 / sqrt 2 occur), beam FWHM in
arcmin, ellmin and ellmax, selected by the if / elif chain on the
experiment name; the final else branch raises (none).  The local
sN_uKaminP stays None through every branch of the source, so it is not
part of the raw tuple. -/
def get_config_raw (exp : String) : Option (Rt2 × ℚ × ℕ × ℕ) :=
  if exp = "Planck" then some (Rt2.ofRat 35, 7, 10, 2048)
  else if exp = "Planck_65" then some (Rt2.ofRat 35, 13/2, 100, 2048)
  else if exp = "S4" then some (Rt2.ofRat (3/2), 3, 10, 3000)
  else if exp = "S4_opti" then some (Rt2.ofRat 1, 1, 10, 3000)
  else if exp = "S4_SPDP" then some (⟨0, 1/4⟩, 1, 10, 4096)
  else if exp = "S4_opti_6000" then some (Rt2.ofRat 1, 1, 10, 6000)
  else if exp = "S5" then some (Rt2.ofRat (3/8), 3, 10, 3000)
  else if exp = "S6" then some (Rt2.ofRat (3/32), 3, 10, 3000)
  else if exp = "SO" then some (Rt2.ofRat 3, 3, 10, 3000)
  else if exp = "SOb1" then some (Rt2.ofRat 3, 1, 10, 3000)
  else if exp = "PB85" then some (⟨0, 17/4⟩, 7/2, 10, 3000)
  else if exp = "PB5" then some (⟨0, 5/2⟩, 7/2, 10, 3000)
  else if exp = "fcy_mark" then some (Rt2.ofRat 5, 7/5, 10, 3000)
  else if exp = "5muKamin_1amin" then some (Rt2.ofRat 5, 1, 10, 3000)
  else if exp = "Planck45" then some (Rt2.ofRat 45, 5, 10, 2048)
  else if exp = "Planck45_lmax3000" then some (Rt2.ofRat 45, 5, 10, 3000)
  else none

/-- The record returned by get_config. -/
structure ExpConfig where
  sN_uKamin : Rt2
  sN_uKaminP : Rt2
  Beam_FWHM_amin : ℚ
  ellmin : ℕ
  ellmax : ℕ
deriving DecidableEq

/-- Embeds get_config.  Since sN_uKaminP is None in every branch of the
source, the closing line sN_uKaminP = sN_uKaminP or sqrt(2.) * sN_uKamin
always applies the sqrt 2 default. -/
def get_config (exp : String) : Option ExpConfig :=
  (get_config_raw exp).map fun r =>
    { sN_uKamin := r.1,
      sN_uKaminP := Rt2.mul Rt2.sqrt2 r.1,
      Beam_FWHM_amin := r.2.1,
      ellmin := r.2.2.1,
      ellmax := r.2.2.2 }

/-- The sixteen experiment names recognized by the if / elif chain of
get_config. -/
def knownExperiments : List String :=
  ["Planck", "Planck_65", "S4", "S4_opti", "S4_SPDP", "S4_opti_6000",
   "S5", "S6", "SO", "SOb1", "PB85", "PB5", "fcy_mark",
   "5muKamin_1amin", "Planck45", "Planck45_lmax3000"]

/-- Embeds get_fidcls.  Spectra dictionaries are association lists from
column name to data column; cls_unlr and cls_lenr stand for the contents
of the two fiducial files loaded by camb_clfile and oo_data for the
field-rotation file loaded by np.loadtxt (all external inputs, so they
are parameters here).  Each unlensed column is truncated to indices
0 .. ellmax_sky, except that the pp column is then re-assigned its full
data; with wrotationCls the oo column is inserted afterwards with its
full data (a fresh dictionary key, hence an append).  Every lensed
column is truncated. -/
def get_fidcls (ellmax_sky : ℕ) (wrotationCls : Bool)
    (cls_unlr : List (String × List ℚ)) (oo_data : List ℚ)
    (cls_lenr : List (String × List ℚ)) :
    List (String × List ℚ) × List (String × List ℚ) :=
  let cls_unl := cls_unlr.map fun kv =>
    if kv.1 = "pp" then kv else (kv.1, kv.2.take (ellmax_sky + 1))
  let cls_unl := if wrotationCls then cls_unl ++ [("oo", oo_data)] else cls_unl
  let cls_len := cls_lenr.map fun kv => (kv.1, kv.2.take (ellmax_sky + 1))
  (cls_unl, cls_len)

/-- The pair (skypha_libdir, sims_libdir) of cache directories formed by
get_lencmbs_lib; none when the geometry assertion for (res, res) fails.
The fsky bucket is computed from the lsides of that geometry. -/
def get_lencmbs_paths (root : String) (res : ℤ) (nsims : ℕ)
    (wrotation : Bool) : Option (List String × List String) :=
  (get_ellmat root res res).map fun HD_ellmat =>
    ([root, "temp", toString nsims ++ "_sims", fsky04 (fsky_of HD_ellmat),
      "len_alms", "skypha" ++ wsuffix wrotation],
     [root, "temp", toString nsims ++ "_sims", fsky04 (fsky_of HD_ellmat),
      "len_alms" ++ wsuffix wrotation])

/-- The pair (pixpha_libdir, sims_libdir) of cache directories formed by
get_maps_lib.  Mirrors the call order of the body: get_config(exp) first
(none for an unknown experiment), then the HD geometry built inside
get_lencmbs_lib (the fsky bucket comes from the lsides of the
(HDres, HDres) geometry), then the data geometry get_ellmat(LDres, HDres).
The experiment name appears as a segment of the maps sims_libdir only,
not of pixpha_libdir. -/
def get_maps_paths (exp : String) (root : String) (LDres HDres : ℤ)
    (nsims : ℕ) (wrotation : Bool) : Option (List String × List String) :=
  (get_config exp).bind fun _ =>
    (get_ellmat root HDres HDres).bind fun HD_ellmat =>
      (get_ellmat root LDres HDres).map fun _ =>
        ([root, "temp", toString nsims ++ "_sims", fsky04 (fsky_of HD_ellmat),
          "res" ++ toString LDres, "pixpha"],
         [root, "temp", toString nsims ++ "_sims", fsky04 (fsky_of HD_ellmat),
          "res" ++ toString LDres, exp, "maps" ++ wsuffix wrotation])

/-- Events of the generation protocol of get_lencmbs_lib and
get_maps_lib: generation of one CMB sky phase realization, generation of
one pixel-noise phase realization, the pbs.barrier() call, and the
construction of the returned library object. -/
inductive Ev
  | genCMBPhase (idx : ℕ)
  | genNoisePhase (idx : ℕ)
  | barrier
  | constructLencmbs
  | constructMaps
deriving DecidableEq

/-- True on CMB-phase generation events. -/
def Ev.isGenCMB : Ev → Bool
  | .genCMBPhase _ => true
  | _ => false

/-- True on noise-phase generation events. -/
def Ev.isGenNoise : Ev → Bool
  | .genNoisePhase _ => true
  | _ => false

/-- Trace of get_lencmbs_lib as run by one worker: rank models pbs.rank
and skyFull the value skypha.is_full() reports.  The source guards the
generation loop over the nsims indices by
(not skypha.is_full()) and (pbs.rank == 0); every worker then calls
pbs.barrier() and only afterwards constructs and returns the library. -/
def lencmbs_trace (rank nsims : ℕ) (skyFull : Bool) : List Ev :=
  (if skyFull = false ∧ rank = 0
   then (List.range nsims).map Ev.genCMBPhase else [])
  ++ [Ev.barrier, Ev.constructLencmbs]

/-- Trace of get_maps_lib as run by one worker: it first runs
get_lencmbs_lib in full (including its barrier), then the pixel-noise
generation loop under the guard (not pixpha.is_full()) and
(pbs.rank == 0), then pbs.barrier(), then constructs the map library. -/
def maps_trace (rank nsims : ℕ) (skyFull pixFull : Bool) : List Ev :=
  lencmbs_trace rank nsims skyFull
  ++ (if pixFull = false ∧ rank = 0
      then (List.range nsims).map Ev.genNoisePhase else [])
  ++ [Ev.barrier, Ev.constructMaps]

/-- Helper of precededByBarrier: scans the trace keeping a flag that
records whether a barrier has been passed, and checks the flag at every
occurrence of the target event. -/
def afterBarrierGo (seen : Bool) (target : Ev) : List Ev → Bool
  | [] => true
  | e :: es =>
      if e = target then seen && afterBarrierGo seen target es
      else afterBarrierGo (seen || decide (e = Ev.barrier)) target es

/-- True when every occurrence of the target event in the trace comes
strictly after at least one barrier event. -/
def precededByBarrier (l : List Ev) (target : Ev) : Bool :=
  afterBarrierGo false target l

/-- The sky-filter lambda of get_lencmbs_lib,
fun ell => ell <= ellmax_sky, where the body sets ellmax_sky to the
module constant LMAX_SKY; res, nsims and wrotation are in scope in the
source but unused by the filter. -/
def lencmbs_sky_filt (res : ℤ) (nsims : ℕ) (wrotation : Bool) : ℕ → Bool :=
  fun ell => decide (ell ≤ LMAX_SKY)

/-- The data-side filter of get_isocov,
fun ell => (ell >= ellmin) and (ell <= ellmax), with the band limits of
the experiment configuration. -/
def get_isocov_dat_filt (cfg : ExpConfig) : ℕ → Bool :=
  fun ell => decide (cfg.ellmin ≤ ell) && decide (ell ≤ cfg.ellmax)

/-- The sky-side filter of get_isocov, fun ell => ell <= ellmax_sky with
ellmax_sky set to LMAX_SKY; the configuration is in scope but unused. -/
def get_isocov_sky_filt (cfg : ExpConfig) : ℕ → Bool :=
  fun ell => decide (ell ≤ LMAX_SKY)

/-- The noise spectra dictionary built by get_isocov, one constant array
per channel t, q, u. -/
structure NoiseCls where
  t : List Rt2
  q : List Rt2
  u : List Rt2
deriving DecidableEq

/-- The constant value (level * pi / 180 / 60) ** 2 of a noise spectrum,
recorded as its coefficient of pi ** 2: the level is a + b sqrt 2, so
its square is again of that form, scaled by 1 / (180 * 60) ** 2. -/
def noise_power (level : Rt2) : Rt2 :=
  Rt2.scale (1 / 10800 ^ 2) (Rt2.mul level level)

/-- The cls_noise dictionary of get_isocov: each channel is the array
(level * pi / 180 / 60) ** 2 * np.ones(ellmax_sky + 1) with
ellmax_sky = LMAX_SKY, the t channel from sN_uKamin and the q and u
channels from sN_uKaminP. -/
def get_isocov_cls_noise (cfg : ExpConfig) : NoiseCls :=
  { t := List.replicate (LMAX_SKY + 1) (noise_power cfg.sN_uKamin),
    q := List.replicate (LMAX_SKY + 1) (noise_power cfg.sN_uKaminP),
    u := List.replicate (LMAX_SKY + 1) (noise_power cfg.sN_uKaminP) }

/-- Modelled from the spec: the precondition the specification states for
the geometry builder, both resolutions within 0 .. 14 and
low_res <= high_res (the claim predicate for the error-handling claim;
the source itself checks only the two upper bounds). -/
def spec_valid_res (LD_res HD_res : ℤ) : Prop :=
  (0 ≤ LD_res ∧ LD_res ≤ 14) ∧ (0 ≤ HD_res ∧ HD_res ≤ 14) ∧ LD_res ≤ HD_res

instance (LD_res HD_res : ℤ) : Decidable (spec_valid_res LD_res HD_res) := by
  unfold spec_valid_res
  infer_instance

/-! Shared helper lemmas. -/

/-- An element of a replicated list at any in-range position is the
replicated value. -/
theorem getElem?_replicate_of_lt {α : Type} (n i : ℕ) (a : α) (h : i < n) :
    (List.replicate n a)[i]? = some a := by
  induction n generalizing i with
  | zero => omega
  | succ k ih =>
      cases i with
      | zero => simp [List.replicate_succ]
      | succ j =>
          have hj : j < k := by omega
          simpa [List.replicate_succ] using ih j hj

/-- Mapping and testing with a predicate false on the whole image yields
an any of false. -/
theorem any_map_false {α β : Type} (l : List α) (f : α → β) (p : β → Bool)
    (h : ∀ x : α, p (f x) = false) : (l.map f).any p = false := by
  induction l with
  | nil => rfl
  | cons x xs ih => simp [ih, h]

/-- Mapping range and testing with a predicate true on the whole image
yields an any equal to the emptiness test of the range. -/
theorem any_map_range_pos (n : ℕ) (f : ℕ → Ev) (p : Ev → Bool)
    (h : ∀ i : ℕ, p (f i) = true) :
    ((List.range n).map f).any p = decide (0 < n) := by
  cases n with
  | zero => rfl
  | succ k => simp [List.range_succ, h]

/-- Once a barrier has been passed, the barrier-before-target scan
always succeeds. -/
theorem afterBarrierGo_of_seen (target : Ev) (l : List Ev) :
    afterBarrierGo true target l = true := by
  induction l with
  | nil => rfl
  | cons e es ih =>
      unfold afterBarrierGo
      by_cases he : e = target
      · simp [he, ih]
      · simp [he, ih]

/-- A trace that reaches a barrier before any occurrence of the target
event passes the barrier-before-target scan. -/
theorem precededByBarrier_of_split (l1 l2 : List Ev) (target : Ev)
    (h1 : target ∉ l1) (h2 : target ≠ Ev.barrier) :
    precededByBarrier (l1 ++ Ev.barrier :: l2) target = true := by
  have hbt : ¬(Ev.barrier = target) := fun h => h2 h.symm
  induction l1 with
  | nil =>
      unfold precededByBarrier afterBarrierGo
      simp [hbt, afterBarrierGo_of_seen]
  | cons e es ih =>
      have hne : ¬(e = target) := by
        intro h
        exact h1 (by simp [h])
      have hes : target ∉ es := fun h => h1 (List.mem_cons_of_mem _ h)
      unfold precededByBarrier afterBarrierGo
      by_cases hb : e = Ev.barrier
      · simp [hne, hb, afterBarrierGo_of_seen, hbt]
      · simpa [hne, hb, precededByBarrier] using ih hes

/-- Evaluation of the geometry at (LD_res, HD_res) = (7, 14): a
128-pixel side and full-sky side coefficient 1 (that is, sqrt(4 pi)
radians per side). -/
theorem ellmat_7_14_eval (root : String) :
    get_ellmat root 7 14 =
      some ⟨(128, 128), (1, 1), [root, "temp", "ellmats", "ellmat_14_7"]⟩ := by
  have hs : ("ellmat_" ++ toString (14 : ℤ) ++ "_" ++ toString (7 : ℤ))
      = "ellmat_14_7" := by decide
  simp [get_ellmat, hs]
  norm_num

/-- Evaluation of the geometry at (LD_res, HD_res) = (14, 14): the
full-sky patch used by get_lencmbs_lib at res = 14. -/
theorem ellmat_14_14_eval (root : String) :
    get_ellmat root 14 14 =
      some ⟨(16384, 16384), (1, 1), [root, "temp", "ellmats", "ellmat_14_14"]⟩ := by
  have hs : ("ellmat_" ++ toString (14 : ℤ) ++ "_" ++ toString (14 : ℤ))
      = "ellmat_14_14" := by decide
  simp [get_ellmat, hs]
  norm_num

/-- The rounding helper at the integer 1000. -/
theorem np_round_1000 : np_round 1000 = 1000 := by
  simp [np_round]

/-- Evaluation of the get_lencmbs_lib cache paths at res = 14 and
nsims = 120: the fsky bucket is 1000. -/
theorem lencmbs_paths_eval (root : String) (w : Bool) :
    get_lencmbs_paths root 14 120 w =
      some ([root, "temp", "120_sims", "fsky1000", "len_alms", "skypha" ++ wsuffix w],
            [root, "temp", "120_sims", "fsky1000", "len_alms" ++ wsuffix w]) := by
  have hf : fsky04 1000 = "fsky1000" := by decide
  have hsims : toString (120 : ℕ) ++ "_sims" = "120_sims" := by decide
  simp [get_lencmbs_paths, ellmat_14_14_eval, fsky_of, np_round_1000, hf, hsims]

/-- Evaluation of the get_maps_lib cache paths at LDres = 7, HDres = 14,
nsims = 120, no rotation, for any recognized experiment. -/
theorem maps_paths_eval (exp root : String) (cfg : ExpConfig)
    (h : get_config exp = some cfg) :
    get_maps_paths exp root 7 14 120 false =
      some ([root, "temp", "120_sims", "fsky1000", "res7", "pixpha"],
            [root, "temp", "120_sims", "fsky1000", "res7", exp, "maps"]) := by
  have hf : fsky04 1000 = "fsky1000" := by decide
  have hsims : toString (120 : ℕ) ++ "_sims" = "120_sims" := by decide
  have hres : "res" ++ toString (7 : ℤ) = "res7" := by decide
  simp [get_maps_paths, h, ellmat_14_14_eval, ellmat_7_14_eval, fsky_of,
        np_round_1000, hf, hsims, hres, wsuffix]

/-- Evaluation of get_config at Planck. -/
theorem config_Planck_eval : get_config "Planck" =
    some ⟨⟨35, 0⟩, ⟨0, 35⟩, 7, 10, 2048⟩ := by
  simp [get_config, get_config_raw, Rt2.mul, Rt2.sqrt2, Rt2.ofRat]

/-- Evaluation of get_config at S4. -/
theorem config_S4_eval : get_config "S4" =
    some ⟨⟨3/2, 0⟩, ⟨0, 3/2⟩, 3, 10, 3000⟩ := by
  simp [get_config, get_config_raw, Rt2.mul, Rt2.sqrt2, Rt2.ofRat]

/-- A block of CMB-phase generation events contains a CMB-phase event
exactly when it is nonempty. -/
theorem anyCMB_range (n : ℕ) :
    ((List.range n).map Ev.genCMBPhase).any Ev.isGenCMB = decide (0 < n) :=
  any_map_range_pos _ _ _ (fun _ => rfl)

/-- A block of noise-phase generation events contains a noise-phase
event exactly when it is nonempty. -/
theorem anyNoise_range (n : ℕ) :
    ((List.range n).map Ev.genNoisePhase).any Ev.isGenNoise = decide (0 < n) :=
  any_map_range_pos _ _ _ (fun _ => rfl)

/-- A block of noise-phase generation events contains no CMB-phase
event. -/
theorem anyCMB_of_noise (n : ℕ) :
    ((List.range n).map Ev.genNoisePhase).any Ev.isGenCMB = false :=
  any_map_false _ _ _ (fun _ => rfl)

/-- A block of CMB-phase generation events contains no noise-phase
event. -/
theorem anyNoise_of_cmb (n : ℕ) :
    ((List.range n).map Ev.genCMBPhase).any Ev.isGenNoise = false :=
  any_map_false _ _ _ (fun _ => rfl)

/-! Claim theorems. -/

/-- C1: in the traces of get_lencmbs_lib and get_maps_lib, a CMB
(respectively noise) phase-generation event occurs exactly when the
worker has rank 0 and the corresponding phase cache reported not full
(and there is at least one simulation index to generate) — in
particular a non-rank-0 worker never generates or writes phase
realizations; moreover every worker has the barrier event in its trace,
and every library-construction event is strictly preceded by a barrier
event. -/
theorem generation_rank0_and_barrier (rank nsims : ℕ) (skyFull pixFull : Bool) :
    ((lencmbs_trace rank nsims skyFull).any Ev.isGenCMB
        = (decide (rank = 0) && !skyFull && decide (0 < nsims))) ∧
    ((maps_trace rank nsims skyFull pixFull).any Ev.isGenCMB
        = (decide (rank = 0) && !skyFull && decide (0 < nsims))) ∧
    ((maps_trace rank nsims skyFull pixFull).any Ev.isGenNoise
        = (decide (rank = 0) && !pixFull && decide (0 < nsims))) ∧
    Ev.barrier ∈ lencmbs_trace rank nsims skyFull ∧
    Ev.barrier ∈ maps_trace rank nsims skyFull pixFull ∧
    precededByBarrier (lencmbs_trace rank nsims skyFull) Ev.constructLencmbs = true ∧
    precededByBarrier (maps_trace rank nsims skyFull pixFull) Ev.constructMaps = true := by
  by_cases hr : rank = 0 <;> cases skyFull <;> cases pixFull <;>
    simp [lencmbs_trace, maps_trace, hr, anyCMB_range, anyNoise_range,
          anyCMB_of_noise, anyNoise_of_cmb, List.any_append,
          Ev.isGenCMB, Ev.isGenNoise, List.append_assoc, List.cons_append] <;>
    constructor <;>
    first
      | exact precededByBarrier_of_split _ _ _ (by simp) (by decide)
      | exact precededByBarrier_of_split [] _ _ (by simp) (by decide)

/-- C2: two calls of get_lencmbs_lib that agree on the cache root, the
resolution res and the simulation count nsims, but whose unlensed
spectra differ (the spectra are those of get_fidcls at
ellmax_sky = LMAX_SKY with the wrotation flag of the call, over any
fixed fiducial file contents), form their lensed-sky cache directory
sims_libdir at different paths.  Differing spectra force differing
wrotation flags, and the wrotation flag enters the final path segment.
The statement needs no assumption on the phase caches, so it covers in
particular calls whose phase caches agree. -/
theorem lencmbs_sims_libdir_of_spectra (root : String) (res : ℤ) (nsims : ℕ)
    (w1 w2 : Bool) (cls_unlr : List (String × List ℚ)) (oo_data : List ℚ)
    (cls_lenr : List (String × List ℚ))
    (p1 p2 : List String × List String)
    (hspec : get_fidcls LMAX_SKY w1 cls_unlr oo_data cls_lenr ≠
             get_fidcls LMAX_SKY w2 cls_unlr oo_data cls_lenr)
    (h1 : get_lencmbs_paths root res nsims w1 = some p1)
    (h2 : get_lencmbs_paths root res nsims w2 = some p2) :
    p1.2 ≠ p2.2 := by
  have hw : w1 ≠ w2 := by
    intro h
    exact hspec (by rw [h])
  cases hE : get_ellmat root res res with
  | none =>
      rw [get_lencmbs_paths, hE] at h1
      simp at h1
  | some em =>
      rw [get_lencmbs_paths, hE] at h1
      rw [get_lencmbs_paths, hE] at h2
      simp at h1 h2
      cases w1 <;> cases w2
      · exact absurd rfl hw
      · rw [← h1, ← h2]
        simp [wsuffix]
      · rw [← h1, ← h2]
        simp [wsuffix]
      · exact absurd rfl hw

/-- C2, witness: at root /r, res 14, nsims 120 the wrotation-false and
wrotation-true calls have differing spectra and differing sims_libdir
paths. -/
theorem lencmbs_sims_libdir_of_spectra_w :
    (get_fidcls LMAX_SKY false [("tt", [])] [] [] ≠
      get_fidcls LMAX_SKY true [("tt", [])] [] []) ∧
    ((["/r", "temp", "120_sims", "fsky1000", "len_alms", "skypha"],
      ["/r", "temp", "120_sims", "fsky1000", "len_alms"]) :
        List String × List String).2 ≠
      (["/r", "temp", "120_sims", "fsky1000", "len_alms_wcurl"]) := by
  have hsp : get_fidcls LMAX_SKY false [("tt", [])] [] [] ≠
      get_fidcls LMAX_SKY true [("tt", [])] [] [] := by
    simp [get_fidcls]
  refine ⟨hsp, ?_⟩
  exact lencmbs_sims_libdir_of_spectra "/r" 14 120 false true [("tt", [])] [] []
    (["/r", "temp", "120_sims", "fsky1000", "len_alms", "skypha"],
     ["/r", "temp", "120_sims", "fsky1000", "len_alms"])
    (["/r", "temp", "120_sims", "fsky1000", "len_alms", "skypha_wcurl"],
     ["/r", "temp", "120_sims", "fsky1000", "len_alms_wcurl"])
    hsp
    (by simpa [wsuffix] using lencmbs_paths_eval "/r" false)
    (by simpa [wsuffix] using lencmbs_paths_eval "/r" true)

/-- C3, counterexample: Planck and S4 are distinct experiments, yet at
LDres 7, HDres 14, nsims 120 and the same root their get_maps_lib calls
resolve to the same pixpha_libdir (the pixel-noise phase cache path
contains no experiment segment), so the same pixel-noise phase
realizations are served to both. -/
theorem maps_pixpha_path_shared_cex :
    ("Planck" : String) ≠ "S4" ∧
    (get_maps_paths "Planck" "/r" 7 14 120 false).map Prod.fst =
      (get_maps_paths "S4" "/r" 7 14 120 false).map Prod.fst ∧
    (get_maps_paths "Planck" "/r" 7 14 120 false).map Prod.fst =
      some ["/r", "temp", "120_sims", "fsky1000", "res7", "pixpha"] := by
  refine ⟨by decide, ?_, ?_⟩
  · simp [maps_paths_eval "Planck" "/r" _ config_Planck_eval,
          maps_paths_eval "S4" "/r" _ config_S4_eval]
  · simp [maps_paths_eval "Planck" "/r" _ config_Planck_eval]

/-- C3, amended: the pixel-noise phase cache path pixpha_libdir of
get_maps_lib is independent of the experiment name (two recognized
experiments with the same root, resolutions and simulation count share
it, hence share the pixel-noise phase realizations, which are then only
scaled by experiment-specific noise levels); the experiment name
parameterizes only the maps cache path sims_libdir, which differs
between distinct experiments. -/
theorem maps_paths_exp_dependence (exp1 exp2 root : String) (LDres HDres : ℤ)
    (nsims : ℕ) (w : Bool) (c1 c2 : ExpConfig)
    (h1 : get_config exp1 = some c1) (h2 : get_config exp2 = some c2)
    (hne : exp1 ≠ exp2)
    (hsome : (get_maps_paths exp1 root LDres HDres nsims w).isSome = true) :
    (get_maps_paths exp1 root LDres HDres nsims w).map Prod.fst =
      (get_maps_paths exp2 root LDres HDres nsims w).map Prod.fst ∧
    (get_maps_paths exp1 root LDres HDres nsims w).map Prod.snd ≠
      (get_maps_paths exp2 root LDres HDres nsims w).map Prod.snd := by
  cases hE : get_ellmat root HDres HDres with
  | none =>
      rw [get_maps_paths, h1, hE] at hsome
      simp at hsome
  | some emHD =>
      cases hL : get_ellmat root LDres HDres with
      | none =>
          rw [get_maps_paths, h1, hE, hL] at hsome
          simp at hsome
      | some emLD =>
          rw [get_maps_paths, get_maps_paths, h1, h2, hE, hL]
          constructor
          · simp
          · simp [hne]

/-- C3 amended, witness: instantiated at Planck versus S4, root /r,
LDres 7, HDres 14, nsims 120. -/
theorem maps_paths_exp_dependence_w :
    (get_config "Planck" = some ⟨⟨35, 0⟩, ⟨0, 35⟩, 7, 10, 2048⟩) ∧
    (get_config "S4" = some ⟨⟨3/2, 0⟩, ⟨0, 3/2⟩, 3, 10, 3000⟩) ∧
    (("Planck" : String) ≠ "S4") ∧
    ((get_maps_paths "Planck" "/r" 7 14 120 false).isSome = true) ∧
    ((get_maps_paths "Planck" "/r" 7 14 120 false).map Prod.fst =
       (get_maps_paths "S4" "/r" 7 14 120 false).map Prod.fst ∧
     (get_maps_paths "Planck" "/r" 7 14 120 false).map Prod.snd ≠
       (get_maps_paths "S4" "/r" 7 14 120 false).map Prod.snd) := by
  refine ⟨config_Planck_eval, config_S4_eval, by decide, ?_, ?_⟩
  · simp [maps_paths_eval "Planck" "/r" _ config_Planck_eval]
  · exact maps_paths_exp_dependence "Planck" "S4" "/r" 7 14 120 false _ _
      config_Planck_eval config_S4_eval (by decide)
      (by simp [maps_paths_eval "Planck" "/r" _ config_Planck_eval])

/-- C8: for every recognized experiment, the noise spectra built by
get_isocov assign to each of the t, q, u channels, at every multipole
from 0 to ellmax_sky = LMAX_SKY, the constant value
(level * pi / 180 / 60) ** 2 — expressed as its coefficient of pi ** 2,
namely the square of the level (temperature level for t, polarization
level for q and u) scaled by 1 / 10800 ** 2. -/
theorem isocov_cls_noise_flat (exp : String) (cfg : ExpConfig)
    (h : get_config exp = some cfg) (ell : ℕ) (hell : ell ≤ LMAX_SKY) :
    ((get_isocov_cls_noise cfg).t)[ell]? =
      some (Rt2.scale (1 / 10800 ^ 2) (Rt2.mul cfg.sN_uKamin cfg.sN_uKamin)) ∧
    ((get_isocov_cls_noise cfg).q)[ell]? =
      some (Rt2.scale (1 / 10800 ^ 2) (Rt2.mul cfg.sN_uKaminP cfg.sN_uKaminP)) ∧
    ((get_isocov_cls_noise cfg).u)[ell]? =
      some (Rt2.scale (1 / 10800 ^ 2) (Rt2.mul cfg.sN_uKaminP cfg.sN_uKaminP)) := by
  have hlt : ell < LMAX_SKY + 1 := by omega
  refine ⟨?_, ?_, ?_⟩ <;>
    · show (List.replicate (LMAX_SKY + 1) _)[ell]? = _
      rw [getElem?_replicate_of_lt _ _ _ hlt]
      rfl

/-- C8, witness: instantiated at Planck, channel t, multipole 0. -/
theorem isocov_cls_noise_flat_w :
    (get_config "Planck" = some ⟨⟨35, 0⟩, ⟨0, 35⟩, 7, 10, 2048⟩) ∧
    ((0 : ℕ) ≤ LMAX_SKY) ∧
    ((get_isocov_cls_noise ⟨⟨35, 0⟩, ⟨0, 35⟩, 7, 10, 2048⟩).t)[0]? =
      some (Rt2.scale (1 / 10800 ^ 2) (Rt2.mul ⟨35, 0⟩ ⟨35, 0⟩)) :=
  ⟨config_Planck_eval, by omega,
   (isocov_cls_noise_flat "Planck" _ config_Planck_eval 0 (by omega)).1⟩

/-- C9, counterexample: with ellmax_sky = 1 and wrotationCls true, the
returned unlensed dictionary contains the column oo with its full
4-entry data, although oo is not pp and 4 entries exceed the 0 .. 1
truncation range — so pp is not the only column exempt from
truncation. -/
theorem fidcls_oo_full_length_cex :
    (get_fidcls 1 true [("tt", [1, 2, 3, 4])] [9, 9, 9, 9] []).1 =
      [("tt", [1, 2]), ("oo", [9, 9, 9, 9])] ∧
    ("oo" : String) ≠ "pp" ∧
    ([9, 9, 9, 9] : List ℚ).length = 4 ∧ ¬(4 ≤ 1 + 1) := by
  refine ⟨?_, by decide, by simp, by omega⟩
  simp [get_fidcls]

/-- C9, amended: get_fidcls returns every input column, and in exactly
one of two shapes.  Forward direction: each unlensed input column keyed
k is returned as is when k is pp (the full column, for every
ellmax_sky), and truncated to entries 0 .. ellmax_sky otherwise; with
wrotationCls the rotation column oo is additionally returned with its
full file data; each lensed input column is returned truncated.
Backward direction: every returned pp entry is an untruncated member of
the unlensed input (a pp-truncating variant would violate this), every
returned non-pp unlensed entry is either a truncated input column or
the full oo data under wrotationCls, and every returned lensed entry is
a truncated input column. -/
theorem fidcls_truncation (e : ℕ) (w : Bool)
    (u : List (String × List ℚ)) (oo : List ℚ) (l : List (String × List ℚ)) :
    (∀ k : String, ∀ v0 : List ℚ, (k, v0) ∈ u →
      ((k = "pp" → (k, v0) ∈ (get_fidcls e w u oo l).1) ∧
       (k ≠ "pp" → (k, v0.take (e + 1)) ∈ (get_fidcls e w u oo l).1))) ∧
    (w = true → (("oo" : String), oo) ∈ (get_fidcls e w u oo l).1) ∧
    (∀ k : String, ∀ v : List ℚ, (k, v) ∈ (get_fidcls e w u oo l).1 →
      ((k = "pp" → (k, v) ∈ u) ∧
       (k ≠ "pp" →
         (∃ v0 : List ℚ, (k, v0) ∈ u ∧ v = v0.take (e + 1)) ∨
         (k = "oo" ∧ w = true ∧ v = oo)))) ∧
    (∀ k : String, ∀ v0 : List ℚ, (k, v0) ∈ l →
      (k, v0.take (e + 1)) ∈ (get_fidcls e w u oo l).2) ∧
    (∀ k : String, ∀ v : List ℚ, (k, v) ∈ (get_fidcls e w u oo l).2 →
      ∃ v0 : List ℚ, (k, v0) ∈ l ∧ v = v0.take (e + 1)) := by
  refine ⟨?_, ?_, ?_, ?_, ?_⟩
  · intro k v0 h
    refine ⟨fun hpp => ?_, fun hnp => ?_⟩
    · subst hpp
      cases w with
      | true =>
          show ("pp", v0) ∈
            u.map (fun kv => if kv.1 = "pp" then kv else (kv.1, kv.2.take (e + 1)))
              ++ [("oo", oo)]
          exact List.mem_append_left _ (List.mem_map.mpr ⟨("pp", v0), h, by simp⟩)
      | false =>
          show ("pp", v0) ∈
            u.map (fun kv => if kv.1 = "pp" then kv else (kv.1, kv.2.take (e + 1)))
          exact List.mem_map.mpr ⟨("pp", v0), h, by simp⟩
    · cases w with
      | true =>
          show (k, v0.take (e + 1)) ∈
            u.map (fun kv => if kv.1 = "pp" then kv else (kv.1, kv.2.take (e + 1)))
              ++ [("oo", oo)]
          exact List.mem_append_left _ (List.mem_map.mpr ⟨(k, v0), h, by simp [hnp]⟩)
      | false =>
          show (k, v0.take (e + 1)) ∈
            u.map (fun kv => if kv.1 = "pp" then kv else (kv.1, kv.2.take (e + 1)))
          exact List.mem_map.mpr ⟨(k, v0), h, by simp [hnp]⟩
  · intro hw
    subst hw
    show (("oo" : String), oo) ∈
      u.map (fun kv => if kv.1 = "pp" then kv else (kv.1, kv.2.take (e + 1)))
        ++ [("oo", oo)]
    exact List.mem_append_right _ (by simp)
  · intro k v hm
    cases w with
    | true =>
        simp [get_fidcls] at hm
        rcases hm with ⟨a, b, hab, hif⟩ | ⟨hk, hv⟩
        · by_cases hp : a = "pp"
          · rw [if_pos hp] at hif
            cases hif
            exact ⟨fun _ => hab, fun hnp => absurd hp hnp⟩
          · rw [if_neg hp] at hif
            cases hif
            exact ⟨fun hpp => absurd hpp hp, fun _ => Or.inl ⟨b, hab, rfl⟩⟩
        · refine ⟨fun hpp => ?_, fun _ => Or.inr ⟨hk, rfl, hv⟩⟩
          rw [hpp] at hk
          exact absurd hk (by decide)
    | false =>
        simp [get_fidcls] at hm
        rcases hm with ⟨a, b, hab, hif⟩
        by_cases hp : a = "pp"
        · rw [if_pos hp] at hif
          cases hif
          exact ⟨fun _ => hab, fun hnp => absurd hp hnp⟩
        · rw [if_neg hp] at hif
          cases hif
          exact ⟨fun hpp => absurd hpp hp, fun _ => Or.inl ⟨b, hab, rfl⟩⟩
  · intro k v0 h
    show (k, v0.take (e + 1)) ∈ l.map (fun kv => (kv.1, kv.2.take (e + 1)))
    exact List.mem_map.mpr ⟨(k, v0), h, rfl⟩
  · intro k v hm
    simp [get_fidcls] at hm
    rcases hm with ⟨a, b, hab, hk, hv⟩
    subst hk
    exact ⟨b, hab, hv.symm⟩

/-- C9 amended, witness: with ellmax_sky = 1, the 3-entry pp input
column is returned as a member of the output at its full length (its
truncation to 0 .. 1 would be the distinct column with 2 entries). -/
theorem fidcls_truncation_w :
    ((("pp" : String), ([1, 2, 3] : List ℚ)) ∈
        [(("pp" : String), ([1, 2, 3] : List ℚ))]) ∧
    ((("pp" : String), ([1, 2, 3] : List ℚ)) ∈
        (get_fidcls 1 false [("pp", [1, 2, 3])] [] []).1) :=
  ⟨by simp,
   ((fidcls_truncation 1 false [("pp", [1, 2, 3])] [] []).1 "pp" [1, 2, 3]
      (by simp)).1 rfl⟩

/-- C10: the sky-side harmonic filters built by get_lencmbs_lib and
get_isocov admit exactly the multipoles up to the module constant
LMAX_SKY = 5120, whatever the resolution arguments or the experiment
configuration (the filters are literally the same function for all
parameter values); the experiment band limits (ellmin, ellmax) appear
only in the data-side filter of get_isocov.  Concretely, for Planck
(ellmax 2048) the sky-side filter still admits multipole 5120 while the
data-side filter rejects it, and no filter admits 5121. -/
theorem sky_filters_admit_lmax_only (res res2 : ℤ) (nsims nsims2 : ℕ)
    (w w2 : Bool) (cfg cfg2 : ExpConfig) (ell : ℕ) :
    lencmbs_sky_filt res nsims w ell = decide (ell ≤ 5120) ∧
    get_isocov_sky_filt cfg ell = decide (ell ≤ 5120) ∧
    lencmbs_sky_filt res nsims w = lencmbs_sky_filt res2 nsims2 w2 ∧
    get_isocov_sky_filt cfg = get_isocov_sky_filt cfg2 ∧
    get_isocov_dat_filt cfg ell =
      (decide (cfg.ellmin ≤ ell) && decide (ell ≤ cfg.ellmax)) ∧
    get_isocov_sky_filt cfg 5121 = false ∧
    (get_config "Planck").map (fun c => get_isocov_sky_filt c 5120) = some true ∧
    (get_config "Planck").map (fun c => get_isocov_dat_filt c 5120) = some false := by
  refine ⟨rfl, rfl, rfl, rfl, rfl, by simp [get_isocov_sky_filt, LMAX_SKY], ?_, ?_⟩
  · simp [config_Planck_eval, get_isocov_sky_filt, LMAX_SKY]
  · simp [config_Planck_eval, get_isocov_dat_filt]

/-- C4, counterexample: the pair (LD_res, HD_res) = (7, 5) violates the
precondition stated by the spec (low_res is larger than high_res), yet
get_ellmat does not raise: its only assertion checks the two upper
bounds, so the call proceeds to build the geometry (and hence to the
I/O performed by the ell_mat constructor). -/
theorem get_ellmat_accepts_inverted_res :
    ¬ spec_valid_res 7 5 ∧ (get_ellmat "/r" 7 5).isSome = true := by
  constructor
  · decide
  · rfl

/-- C4, amended: get_ellmat raises (assertion failure, modelled as none,
occurring before any path is formed) exactly when HD_res exceeds 14 or
LD_res exceeds 14; pairs with LD_res greater than HD_res, or with
negative resolutions, are not rejected. -/
theorem get_ellmat_none_iff (root : String) (LD_res HD_res : ℤ) :
    get_ellmat root LD_res HD_res = none ↔ 14 < HD_res ∨ 14 < LD_res := by
  unfold get_ellmat
  split_ifs with h
  · simp only [reduceCtorEq, false_iff]
    omega
  · simp only [true_iff]
    omega

/-- C5: get_ellmat with LD_res = 7 and HD_res = 14 yields the pixel grid
shape (128, 128) and physical side lengths
(sqrt(4 pi) / 2 ** 14) * 2 ** 7 * 2 ** 7 radians on each side (side
lengths are recorded as rational coefficients of sqrt(4 pi), and
2 ** 7 * 2 ** 7 / 2 ** 14 = 1: the full-sky area 4 pi). -/
theorem get_ellmat_7_14_shape_lsides (root : String) :
    (get_ellmat root 7 14).map EllMat.shape = some (128, 128) ∧
    (get_ellmat root 7 14).map EllMat.lsides =
      some ((1 / 2 ^ 14) * 2 ^ 7 * 2 ^ 7, (1 / 2 ^ 14) * 2 ^ 7 * 2 ^ 7) := by
  constructor
  · simp [ellmat_7_14_eval]
  · simp [ellmat_7_14_eval]
    norm_num

/-- C6: get_config of Planck returns temperature noise 35, beam FWHM 7
arcmin, ellmin 10, ellmax 2048, and the polarization noise is exactly
sqrt 2 * 35 (the sqrt 2 default, since no branch of the source sets an
explicit polarization noise). -/
theorem get_config_Planck :
    get_config "Planck" =
      some { sN_uKamin := ⟨35, 0⟩, sN_uKaminP := ⟨0, 35⟩,
             Beam_FWHM_amin := 7, ellmin := 10, ellmax := 2048 } ∧
    (⟨0, 35⟩ : Rt2) = Rt2.mul Rt2.sqrt2 ⟨35, 0⟩ := by
  constructor
  · simp [get_config, get_config_raw, Rt2.mul, Rt2.sqrt2, Rt2.ofRat]
  · simp [Rt2.mul, Rt2.sqrt2]

/-- C7: get_config raises (the final else branch of the chain asserts,
modelled as none) exactly on the names outside the sixteen-entry
registry; in particular no unknown name ever receives a default
configuration.  The embedding of the lookup is a pure function of the
name alone: the source body contains no filesystem operation. -/
theorem get_config_none_iff_unknown (exp : String) :
    get_config exp = none ↔ exp ∉ knownExperiments := by
  by_cases h1 : exp = "Planck"
  · subst h1; simp [get_config, get_config_raw, knownExperiments]
  by_cases h2 : exp = "Planck_65"
  · subst h2; simp [get_config, get_config_raw, knownExperiments]
  by_cases h3 : exp = "S4"
  · subst h3; simp [get_config, get_config_raw, knownExperiments]
  by_cases h4 : exp = "S4_opti"
  · subst h4; simp [get_config, get_config_raw, knownExperiments]
  by_cases h5 : exp = "S4_SPDP"
  · subst h5; simp [get_config, get_config_raw, knownExperiments]
  by_cases h6 : exp = "S4_opti_6000"
  · subst h6; simp [get_config, get_config_raw, knownExperiments]
  by_cases h7 : exp = "S5"
  · subst h7; simp [get_config, get_config_raw, knownExperiments]
  by_cases h8 : exp = "S6"
  · subst h8; simp [get_config, get_config_raw, knownExperiments]
  by_cases h9 : exp = "SO"
  · subst h9; simp [get_config, get_config_raw, knownExperiments]
  by_cases h10 : exp = "SOb1"
  · subst h10; simp [get_config, get_config_raw, knownExperiments]
  by_cases h11 : exp = "PB85"
  · subst h11; simp [get_config, get_config_raw, knownExperiments]
  by_cases h12 : exp = "PB5"
  · subst h12; simp [get_config, get_config_raw, knownExperiments]
  by_cases h13 : exp = "fcy_mark"
  · subst h13; simp [get_config, get_config_raw, knownExperiments]
  by_cases h14 : exp = "5muKamin_1amin"
  · subst h14; simp [get_config, get_config_raw, knownExperiments]
  by_cases h15 : exp = "Planck45"
  · subst h15; simp [get_config, get_config_raw, knownExperiments]
  by_cases h16 : exp = "Planck45_lmax3000"
  · subst h16; simp [get_config, get_config_raw, knownExperiments]
  simp [get_config, get_config_raw, knownExperiments,
        h1, h2, h3, h4, h5, h6, h7, h8, h9, h10, h11, h12, h13, h14, h15, h16]

end Lensit
